import Mathlib

/-!
# Verification of the dagster storage/serialization/migration subsystem

Shallow embedding of the persistence backbone described in `spec.md`:
the structured value codec (serdes), the schema migration manager, the
run / event-log / instigator stores, and the `check` parameter-validation
helpers.  Only `dagster/check/__init__.py` and the back-compat test file
are present in the source tree; the codec and storage layers are
modelled from the spec (each such definition says so in its doc comment).
-/

namespace Dagster

/-! ## Structured value codec (serdes) -/

/-- Modelled from the spec: the self-describing, JSON-compatible wire
representation produced by `serialize_dagster_namedtuple` /
`serialize_value` (the serdes module is not under `src/`).  Objects are
ordered association lists of string keys to wire values. -/
inductive JsonValue where
  | str (s : String)
  | int (n : Int)
  | bool (b : Bool)
  | null
  | arr (xs : List JsonValue)
  | obj (fields : List (String × JsonValue))
deriving Repr

/-- Modelled from the spec: in-memory domain values handled by the codec.
`vTuple tag fields` is a registered composite (a whitelisted namedtuple)
carrying its discriminator tag and named field values. -/
inductive DValue where
  | vStr (s : String)
  | vInt (n : Int)
  | vBool (b : Bool)
  | vNull
  | vList (xs : List DValue)
  | vTuple (tag : String) (fields : List (String × DValue))
deriving Repr

/-- Modelled from the spec: one registry (whitelist map) entry — the
discriminator tag, the type's field set, the field-default table, and the
rename/compatibility table mapping historical field names to current
ones. -/
structure RegistryEntry where
  tag : String
  fieldNames : List String
  defaults : List (String × DValue)
  fieldRenames : List (String × String)
deriving Repr

/-- Modelled from the spec: the process-wide type registry (`WhitelistMap`),
plus a rename table mapping historical discriminator tags to current
ones. -/
structure Registry where
  entries : List RegistryEntry
  tagRenames : List (String × String)
deriving Repr

/-- Look a name up in a rename table; a name with no entry maps to itself. -/
def lookupRename (renames : List (String × String)) (name : String) : String :=
  match renames.find? (fun p => p.1 == name) with
  | some p => p.2
  | none => name

/-- Resolve a discriminator tag to its registry entry. -/
def Registry.findEntry (reg : Registry) (tag : String) : Option RegistryEntry :=
  reg.entries.find? (fun e => e.tag == tag)

/-- The reserved discriminator field of the wire format. -/
def classKey : String := "__class__"

mutual

/-- Modelled from the spec: `encode` emits the discriminator tag alongside
the field values; nested composites and sequences recurse; scalars pass
through. -/
def encode : DValue → JsonValue
  | .vStr s => .str s
  | .vInt n => .int n
  | .vBool b => .bool b
  | .vNull => .null
  | .vList xs => .arr (encodeList xs)
  | .vTuple tag fields => .obj ((classKey, .str tag) :: encodeFields fields)

def encodeList : List DValue → List JsonValue
  | [] => []
  | x :: xs => encode x :: encodeList xs

def encodeFields : List (String × DValue) → List (String × JsonValue)
  | [] => []
  | (k, v) :: rest => (k, encode v) :: encodeFields rest

end

/-- Build the constructor argument list field by field: take the payload's
value when the field is present, otherwise the registered default; a field
that is neither present nor defaulted is a decode error. -/
def buildFields (present defaults : List (String × DValue)) :
    List String → Option (List (String × DValue))
  | [] => some []
  | f :: fs =>
    match (match present.lookup f with
           | some v => some (f, v)
           | none => (defaults.lookup f).map (fun d => (f, d))),
          buildFields present defaults fs with
    | some p, some ps => some (p :: ps)
    | _, _ => none

/-- Modelled from the spec: given the decoded entries of a wire object
(discriminator entry first, as `encode` writes it), resolve the tag through
the registry — consulting the tag rename table first — then rename the
remaining keys through the entry's field rename table and build the
composite, filling fields missing from the payload from the default table.
A field that is neither present nor defaulted, or an unresolvable tag,
is a decode error (`none`, standing for `SerializationError`). -/
def assemble (reg : Registry) : List (String × DValue) → Option DValue
  | (ck, .vStr tag0) :: rest =>
    if ck = classKey then
      match reg.findEntry (lookupRename reg.tagRenames tag0) with
      | none => none
      | some entry =>
        (buildFields (rest.map (fun p => (lookupRename entry.fieldRenames p.1, p.2)))
            entry.defaults entry.fieldNames).map
          (fun fs => .vTuple entry.tag fs)
    else none
  | _ => none

mutual

/-- Modelled from the spec: `decode(wire_text, registry)` resolves the
discriminator tag via the registry and reconstructs the value, or fails
(`none` models the `SerializationError` decode error). -/
def decode (reg : Registry) : JsonValue → Option DValue
  | .str s => some (.vStr s)
  | .int n => some (.vInt n)
  | .bool b => some (.vBool b)
  | .null => some (.vNull)
  | .arr xs => (decodeList reg xs).map .vList
  | .obj fields => (decodeEntries reg fields).bind (assemble reg)

def decodeList (reg : Registry) : List JsonValue → Option (List DValue)
  | [] => some []
  | x :: xs =>
    match decode reg x, decodeList reg xs with
    | some v, some vs => some (v :: vs)
    | _, _ => none

def decodeEntries (reg : Registry) : List (String × JsonValue) →
    Option (List (String × DValue))
  | [] => some []
  | (k, v) :: rest =>
    match decode reg v, decodeEntries reg rest with
    | some dv, some drest => some ((k, dv) :: drest)
    | _, _ => none

end

/-- Modelled from the spec: a value is valid for a registry when every
composite in it is registered under its current tag (one the rename tables
leave alone), carries exactly the registered field set, and its components
are in turn valid. -/
inductive Valid (reg : Registry) : DValue → Prop where
  | str (s : String) : Valid reg (.vStr s)
  | int (n : Int) : Valid reg (.vInt n)
  | bool (b : Bool) : Valid reg (.vBool b)
  | null : Valid reg .vNull
  | list (xs : List DValue) (h : ∀ x ∈ xs, Valid reg x) : Valid reg (.vList xs)
  | tuple (tag : String) (fields : List (String × DValue)) (entry : RegistryEntry)
      (hfind : reg.findEntry tag = some entry)
      (htag : lookupRename reg.tagRenames tag = tag)
      (hkeys : fields.map Prod.fst = entry.fieldNames)
      (hnodup : entry.fieldNames.Nodup)
      (hren : ∀ f ∈ entry.fieldNames, lookupRename entry.fieldRenames f = f)
      (hvals : ∀ p ∈ fields, Valid reg p.2) :
      Valid reg (.vTuple tag fields)

/-! ## Schema migration manager -/

/-- Modelled from the spec: the up-logic of one migration step, as exercised
by the back-compat snapshot tests (adding tables such as `snapshots` and
columns such as `mode` or `partition`); the down-logic is its inverse. -/
inductive MigrationOp where
  | addTable (name : String) (cols : List String)
  | addColumn (table : String) (col : String)
deriving Repr, DecidableEq

/-- Modelled from the spec: one migration step — its up-logic and the
"optional" marker that allows mutating calls against the stale schema. -/
structure MigrationStep where
  op : MigrationOp
  optional : Bool
deriving Repr, DecidableEq

/-- A relational schema: the table set with each table's column set. -/
abbrev Schema := List (String × List String)

/-- Apply a step's up-logic to a schema. -/
def applyUp (s : Schema) : MigrationOp → Schema
  | .addTable n cols => s ++ [(n, cols)]
  | .addColumn t c => s.map (fun p => if p.1 = t then (p.1, p.2 ++ [c]) else p)

/-- Apply a step's down-logic (the inverse of `applyUp`). -/
def applyDown (s : Schema) : MigrationOp → Schema
  | .addTable n _ => s.filter (fun p => !(p.1 == n))
  | .addColumn t c => s.map (fun p => if p.1 = t then (p.1, p.2.erase c) else p)

/-- A step's up-logic is well-formed on a schema when it creates a genuinely
new table or column (as the alembic revisions in the snapshot tests do). -/
def wfOp (s : Schema) : MigrationOp → Bool
  | .addTable n _ => !((s.map Prod.fst).contains n)
  | .addColumn t c => s.all (fun p => !(p.1 == t) || !(p.2.contains c))

/-- Each op of the list is well-formed on the schema reached before it. -/
def wfOps (s : Schema) : List MigrationOp → Bool
  | [] => true
  | op :: rest => wfOp s op && wfOps (applyUp s op) rest

/-- Modelled from the spec: one storage domain's migration state — the
domain name, the ordered chain of migration steps compiled into the binary,
the applied revision (the count of applied steps; the head revision is the
chain length), and the current schema. -/
structure DomainState where
  domain : String
  chain : List MigrationStep
  rev : Nat
  schema : Schema
deriving Repr, DecidableEq

/-- `head_revision(domain)`. -/
def DomainState.head (st : DomainState) : Nat := st.chain.length

/-- The pending (not yet applied) steps of the chain. -/
def DomainState.pending (st : DomainState) : List MigrationStep := st.chain.drop st.rev

/-- Modelled from the spec: `upgrade(domain)` applies all pending steps in
order and records the head revision. -/
def upgrade (st : DomainState) : DomainState :=
  { st with
    schema := st.pending.foldl (fun s step => applyUp s step.op) st.schema
    rev := st.head }

/-- Modelled from the spec: `downgrade(domain, target)` applies the
down-logic of the applied steps above `target` in reverse order and records
the target revision. -/
def downgrade (st : DomainState) (target : Nat) : DomainState :=
  { st with
    schema := ((st.chain.take st.rev).drop target).reverse.foldl
      (fun s step => applyDown s step.op) st.schema
    rev := target }

/-! ## Store mutation guard -/

/-- Modelled from the spec: the structured `SchemaMismatch` error
(`DagsterInstanceMigrationRequired`) raised when a mutating call hits a
stale, non-optional schema revision; it names the domain, the current
revision, the head revision, and the remediation command. -/
structure SchemaMismatch where
  domain : String
  current : Nat
  head : Nat
  remediation : String
deriving Repr, DecidableEq

/-- Modelled from the spec: a store — its domain's migration state plus its
records (opaque encoded rows). -/
structure Store where
  mig : DomainState
  records : List String
deriving Repr, DecidableEq

/-- Modelled from the spec: the revision guard run before any mutating call.
At a stale revision with a non-optional pending step the call fails fast
with `SchemaMismatch` and the store is untouched; when every pending step is
optional, the write proceeds at the stale revision (dual-path compatibility
mode). -/
def mutateStore (s : Store) (r : String) : Store × Option SchemaMismatch :=
  if s.mig.rev < s.mig.head ∧ s.mig.pending.any (fun step => !step.optional) = true then
    (s, some ⟨s.mig.domain, s.mig.rev, s.mig.head, "Please run dagster instance migrate."⟩)
  else
    ({ s with records := s.records ++ [r] }, none)

/-! ## Run store partition index -/

/-- Modelled from the spec: one run row — its id, its tags, and the derived
partition columns that the data migration backfills (absent on legacy
rows). -/
structure RunRow where
  runId : String
  tags : List (String × String)
  partitionSetCol : Option String
  partitionCol : Option String
deriving Repr, DecidableEq

/-- The reserved tag key carrying the partition-set name. -/
def partitionSetTag : String := "dagster/partition_set"

/-- The reserved tag key carrying the partition name. -/
def partitionTag : String := "dagster/partition"

/-- Modelled from the spec: the run store with its lazily-built partition
index readiness flag (`has_built_index`). -/
structure RunStore where
  rows : List RunRow
  indexBuilt : Bool
deriving Repr, DecidableEq

/-- Index path: filter runs by the derived partition columns. -/
def partitionRunsByIndex (rows : List RunRow) (pset part : String) : List RunRow :=
  rows.filter (fun r => r.partitionSetCol == some pset && r.partitionCol == some part)

/-- Fallback path: scan the tag-encoded partition data. -/
def partitionRunsByTags (rows : List RunRow) (pset part : String) : List RunRow :=
  rows.filter (fun r => r.tags.lookup partitionSetTag == some pset &&
    r.tags.lookup partitionTag == some part)

/-- Modelled from the spec: `query_runs` filtered by partition uses the
partition index when `has_built_index` reports readiness and otherwise falls
back to the tag scan. -/
def queryRunsByPartition (s : RunStore) (pset part : String) : List RunRow :=
  if s.indexBuilt then partitionRunsByIndex s.rows pset part
  else partitionRunsByTags s.rows pset part

/-- Modelled from `test_run_partition_data_migration`: `mark_index_built`
flips the readiness flag without rewriting any row data. -/
def markIndexBuilt (s : RunStore) : RunStore := { s with indexBuilt := true }

/-- Modelled from the spec: `migrate(force_rebuild_all)` walks all run rows,
recomputes the partition columns from the tag data, and marks the index
built. -/
def migrateRunPartitions (s : RunStore) : RunStore :=
  { rows := s.rows.map (fun r =>
      { r with
        partitionSetCol := r.tags.lookup partitionSetTag
        partitionCol := r.tags.lookup partitionTag })
    indexBuilt := true }

/-! ## Event-log store: asset keys, materializations and wipes -/

/-- Modelled from the spec: one asset-key record — the latest
materialization's timestamp and run, the wipe tombstone timestamp, and the
tags.  A record exists only once a materialization has been recorded. -/
structure AssetRecord where
  lastMatTimestamp : Nat
  lastRunId : String
  wipeTimestamp : Option Nat
  tags : List (String × String)
deriving Repr, DecidableEq

/-- Modelled from the spec: the asset-key index of the event-log store,
keyed by the asset key's ordered path segments (an association list where
the first binding wins, so updates prepend). -/
abbrev AssetTable := List (List String × AssetRecord)

/-- Modelled from the spec: `record_materialization(asset_key, run_id, tags,
timestamp)` upserts the asset-key record, advancing
`last_materialization_timestamp` and `last_run_id` (any wipe tombstone is
kept). -/
def recordMaterialization (t : AssetTable) (k : List String) (runId : String)
    (tags : List (String × String)) (ts : Nat) : AssetTable :=
  match t.lookup k with
  | some r =>
    (k, { r with lastMatTimestamp := ts, lastRunId := runId, tags := tags }) :: t
  | none =>
    (k, { lastMatTimestamp := ts, lastRunId := runId, wipeTimestamp := none,
          tags := tags }) :: t

/-- Modelled from the spec: `wipe_asset(asset_key)` sets the tracked
record's wipe tombstone to the current time; an untracked key has nothing to
wipe. -/
def wipeAsset (t : AssetTable) (k : List String) (now : Nat) : AssetTable :=
  match t.lookup k with
  | some r => (k, { r with wipeTimestamp := some now }) :: t
  | none => t

/-- Modelled from the spec: a key is present iff it has been materialized
and its latest materialization is strictly later than any wipe tombstone. -/
def hasAssetKey (t : AssetTable) (k : List String) : Bool :=
  match t.lookup k with
  | some r =>
    match r.wipeTimestamp with
    | none => true
    | some w => decide (w < r.lastMatTimestamp)
  | none => false

/-! ## Instigator state store and the legacy-unification migration -/

/-- `instigator_type ∈ {SCHEDULE, SENSOR}`. -/
inductive InstigatorType where
  | schedule
  | sensor
deriving Repr, DecidableEq

/-- Modelled from the spec: one instigator-state row (the type discriminator
column is nullable in legacy tables). -/
structure InstigatorStateRow where
  originId : String
  status : String
  data : String
  ty : Option InstigatorType
deriving Repr, DecidableEq

/-- Modelled from the spec: one tick row. -/
structure TickRow where
  tickId : Nat
  originId : String
  status : String
  ty : Option InstigatorType
deriving Repr, DecidableEq

/-- Modelled from the spec and `test_0_10_0_schedule_wipe`: the instigator
storage, holding the legacy `schedules` / `schedule_ticks` tables (while
still present) and the unified `jobs` / `job_ticks` tables (once created);
`none` means the table does not exist. -/
structure InstigatorStorage where
  schedules : Option (List InstigatorStateRow)
  scheduleTicks : Option (List TickRow)
  jobs : Option (List InstigatorStateRow)
  jobTicks : Option (List TickRow)
deriving Repr, DecidableEq

/-- Modelled from the spec and `test_0_10_0_schedule_wipe`: the
legacy-unification migration drops the separate `schedules` /
`schedule_ticks` tables and creates the unified tables; the legacy rows are
not copied over (the snapshot test asserts the tables swap and that
`all_instigator_state()` returns zero states after the upgrade). -/
def unificationUpgrade (_s : InstigatorStorage) : InstigatorStorage :=
  { schedules := none, scheduleTicks := none, jobs := some [], jobTicks := some [] }

/-- Modelled from the spec: `all_instigator_state()` reads the unified table
once it exists, falling back to the legacy schedules table before the
migration. -/
def allInstigatorState (s : InstigatorStorage) : List InstigatorStateRow :=
  match s.jobs with
  | some rows => rows
  | none => s.schedules.getD []

/-- Modelled from the spec: `get_ticks(origin_id)` over the unified tick
table, falling back to the legacy table before the migration. -/
def getTicks (s : InstigatorStorage) (originId : String) : List TickRow :=
  (match s.jobTicks with
   | some rows => rows
   | none => s.scheduleTicks.getD []).filter (fun t => t.originId == originId)

/-! ## The `check` parameter-validation helpers
(`src/python_modules/dagster/dagster/check/__init__.py`) -/

namespace Check

/-- Python values as seen by the `check` helpers: `None`, strings, and
non-string objects (whose type name and repr we carry opaquely). -/
inductive PyObj where
  | none
  | str (s : String)
  | int (n : Int)
  | bool (b : Bool)
  | other (tyName : String) (reprText : String)
deriving Repr, DecidableEq

/-- `isinstance(obj, str)`. -/
def PyObj.isStr : PyObj → Bool
  | .str _ => true
  | _ => false

/-- The payload of `.str s`, when any. -/
def PyObj.asStr : PyObj → Option String
  | .str s => some s
  | _ => Option.none

/-- A single-quote character, for building Python repr strings. -/
def sq : String := String.mk [Char.ofNat 39]

/-- `repr(obj)`. -/
def PyObj.reprText : PyObj → String
  | .none => "None"
  | .str s => sq ++ s ++ sq
  | .int n => toString n
  | .bool b => if b then "True" else "False"
  | .other _ r => r

/-- `type(obj)` as printed, e.g. `<class 'int'>`. -/
def PyObj.typeText : PyObj → String
  | .none => "<class " ++ sq ++ "NoneType" ++ sq ++ ">"
  | .str _ => "<class " ++ sq ++ "str" ++ sq ++ ">"
  | .int _ => "<class " ++ sq ++ "int" ++ sq ++ ">"
  | .bool _ => "<class " ++ sq ++ "bool" ++ sq ++ ">"
  | .other t _ => "<class " ++ sq ++ t ++ sq ++ ">"

/-- `ParameterCheckError` of the check library. -/
structure ParameterCheckError where
  message : String
deriving Repr, DecidableEq

/-- `_param_type_mismatch_exception` (check/__init__.py:1073), single-type
case: builds the `ParameterCheckError` naming the parameter, the expected
type, and the offending object. -/
def paramTypeMismatchException (obj : PyObj) (ttypeName : String)
    (paramName : String) : ParameterCheckError :=
  ⟨"Param \"" ++ paramName ++ "\" is not a " ++ ttypeName ++ ". Got "
    ++ obj.reprText ++ " which is type " ++ obj.typeText ++ "."⟩

/-- `opt_str_param` (check/__init__.py:847): raise unless `obj` is `None` or
a `str`; return the default if `obj` is `None`, else `obj` itself. -/
def opt_str_param (obj : PyObj) (paramName : String) (default : Option String) :
    Except ParameterCheckError (Option String) :=
  if obj ≠ PyObj.none ∧ obj.isStr = false then
    .error (paramTypeMismatchException obj "str" paramName)
  else .ok (if obj = PyObj.none then default else obj.asStr)

/-- `opt_nonempty_str_param` (check/__init__.py:853): raise unless `obj` is
`None` or a `str`; return the default if `obj` is `None` **or the empty
string**, else `obj` itself. -/
def opt_nonempty_str_param (obj : PyObj) (paramName : String)
    (default : Option String) : Except ParameterCheckError (Option String) :=
  if obj ≠ PyObj.none ∧ obj.isStr = false then
    .error (paramTypeMismatchException obj "str" paramName)
  else .ok (if obj = PyObj.none ∨ obj = PyObj.str "" then default else obj.asStr)

end Check

/-! ## Concrete fixtures used to instantiate the theorems -/

/-- A registry with one composite type `Foo{a, b}` where `b` defaults to
`7`. -/
def fooReg : Registry :=
  { entries := [{ tag := "Foo", fieldNames := ["a", "b"],
                  defaults := [("b", .vInt 7)], fieldRenames := [] }]
    tagRenames := [] }

/-- A sample `Foo` value. -/
def fooVal : DValue := .vTuple "Foo" [("a", .vInt 1), ("b", .vInt 2)]

/-- The registry after the `Foo{a, b}` → `Foo{a, c}` evolution: the rename
table maps the historical field name `b` to the current `c`, and the
historical tag `OldFoo` to `Foo`. -/
def renameReg : Registry :=
  { entries := [{ tag := "Foo", fieldNames := ["a", "c"], defaults := []
                  fieldRenames := [("b", "c")] }]
    tagRenames := [("OldFoo", "Foo")] }

/-- A payload written under the historical names (`OldFoo`, field `b`). -/
def oldFooPayload : JsonValue :=
  .obj [(classKey, .str "OldFoo"), ("a", .int 1), ("b", .int 2)]

/-- The run-storage domain of the `snapshot_0_7_6` fixture: one pending
step adding the `snapshots` table. -/
def runsDomain : DomainState :=
  { domain := "run storage"
    chain := [{ op := .addTable "snapshots"
                  ["id", "snapshot_id", "snapshot_body", "snapshot_type"]
                optional := false }]
    rev := 0
    schema := [("runs", ["id", "run_id", "pipeline_name", "status"])] }

/-- A store on a stale domain whose pending step is non-optional. -/
def staleStore : Store := { mig := runsDomain, records := ["run-1"] }

/-- The run-storage domain of the `snapshot_0_11_16` fixture: the pending
step adding the `mode` column is marked optional. -/
def modeDomain : DomainState :=
  { domain := "run storage"
    chain := [{ op := .addColumn "runs" "mode", optional := true }]
    rev := 0
    schema := [("runs", ["id", "run_id", "pipeline_name", "status"])] }

/-- A store on a stale domain all of whose pending steps are optional. -/
def optionalStore : Store := { mig := modeDomain, records := ["run-1"] }

/-- A run row whose partition lives only in its tags (a legacy row the data
migration has not yet backfilled). -/
def legacyPartitionRow : RunRow :=
  { runId := "run-1"
    tags := [(partitionSetTag, "ingest_and_train"), (partitionTag, "2020-01-02")]
    partitionSetCol := none
    partitionCol := none }

/-- The run store of `test_run_partition_data_migration` right after
`mark_index_built`: the readiness flag is on but the row data was never
migrated. -/
def unmigratedIndexedStore : RunStore :=
  { rows := [legacyPartitionRow], indexBuilt := true }

/-- An asset table with one materialized key `["a"]`. -/
def sampleAssetTable : AssetTable :=
  [(["a"], { lastMatTimestamp := 5, lastRunId := "run-1", wipeTimestamp := none
             tags := [("foo", "FOO")] })]

/-- The instigator storage of the 0.10.0 snapshot: legacy schedule tables
with one row each, unified tables not yet created. -/
def legacyInstigatorStorage : InstigatorStorage :=
  { schedules := some [{ originId := "origin-1", status := "RUNNING"
                         data := "cursor-blob", ty := none }]
    scheduleTicks := some [{ tickId := 1, originId := "origin-1"
                             status := "SUCCESS", ty := none }]
    jobs := none
    jobTicks := none }


/-! ### Association-list lookup lemmas -/

lemma lookup_cons_self {α β : Type} [BEq α] [LawfulBEq α] (k : α) (v : β) (l : List (α × β)) :
    ((k, v) :: l).lookup k = some v := by
  simp [List.lookup_cons]

lemma lookup_cons_ne {α β : Type} [BEq α] [LawfulBEq α] {q k : α} (v : β) (l : List (α × β))
    (h : q ≠ k) : ((k, v) :: l).lookup q = l.lookup q := by
  rw [List.lookup_cons, beq_false_of_ne h]

lemma lookup_none_of_not_mem_keys {α β : Type} [BEq α] [LawfulBEq α] {l : List (α × β)} {k : α}
    (h : k ∉ l.map Prod.fst) : l.lookup k = none := by
  induction l with
  | nil => rfl
  | cons p rest ih =>
    obtain ⟨k1, v1⟩ := p
    simp only [List.map_cons, List.mem_cons] at h
    push_neg at h
    rw [lookup_cons_ne _ _ h.1]
    exact ih h.2

lemma lookup_self_of_nodup {α β : Type} [BEq α] [LawfulBEq α] {l : List (α × β)}
    (hnd : (l.map Prod.fst).Nodup) {p : α × β} (hp : p ∈ l) :
    l.lookup p.1 = some p.2 := by
  induction l with
  | nil => cases hp
  | cons q rest ih =>
    obtain ⟨k1, v1⟩ := q
    simp only [List.map_cons, List.nodup_cons] at hnd
    rcases List.mem_cons.mp hp with he | hmem
    · subst he
      exact lookup_cons_self _ _ _
    · have hne : p.1 ≠ k1 := by
        intro he
        exact hnd.1 (he ▸ List.mem_map_of_mem Prod.fst hmem)
      rw [lookup_cons_ne _ _ hne]
      exact ih hnd.2 hmem

lemma lookup_append_of_not_mem_keys {α β : Type} [BEq α] [LawfulBEq α] {l1 : List (α × β)}
    (l2 : List (α × β)) {k : α} (h : k ∉ l1.map Prod.fst) :
    (l1 ++ l2).lookup k = l2.lookup k := by
  induction l1 with
  | nil => rfl
  | cons p rest ih =>
    obtain ⟨k1, v1⟩ := p
    simp only [List.map_cons, List.mem_cons] at h
    push_neg at h
    rw [List.cons_append, lookup_cons_ne _ _ h.1]
    exact ih h.2

lemma lookup_append_left {α β : Type} [BEq α] [LawfulBEq α] {l1 : List (α × β)} (l2 : List (α × β))
    {k : α} {v : β} (h : l1.lookup k = some v) :
    (l1 ++ l2).lookup k = some v := by
  induction l1 with
  | nil => cases h
  | cons p rest ih =>
    obtain ⟨k1, v1⟩ := p
    by_cases he : k = k1
    · subst he
      rw [lookup_cons_self] at h
      rw [List.cons_append, lookup_cons_self]
      exact h
    · rw [lookup_cons_ne _ _ he] at h
      rw [List.cons_append, lookup_cons_ne _ _ he]
      exact ih h


lemma buildFields_eq (all defaults : List (String × DValue))
    (spec : List (String × DValue))
    (h : ∀ p ∈ spec, all.lookup p.1 = some p.2 ∨
        (all.lookup p.1 = none ∧ defaults.lookup p.1 = some p.2)) :
    buildFields all defaults (spec.map Prod.fst) = some spec := by
  induction spec with
  | nil => rfl
  | cons p rest ih =>
    obtain ⟨k, v⟩ := p
    have hp := h (k, v) (List.mem_cons_self _ _)
    have ht := ih (fun q hq => h q (List.mem_cons_of_mem _ hq))
    simp only [List.map_cons]
    rcases hp with hp | ⟨hp1, hp2⟩
    · simp [buildFields, hp, ht]
    · simp [buildFields, hp1, hp2, ht]

lemma decodeList_encodeList (reg : Registry) (xs : List DValue)
    (h : ∀ x ∈ xs, decode reg (encode x) = some x) :
    decodeList reg (encodeList xs) = some xs := by
  induction xs with
  | nil => rfl
  | cons y ys ih =>
    simp [encodeList, decodeList, h y (List.mem_cons_self _ _),
      ih (fun x hx => h x (List.mem_cons_of_mem _ hx))]

lemma decodeEntries_encodeFields (reg : Registry) (fs : List (String × DValue))
    (h : ∀ p ∈ fs, decode reg (encode p.2) = some p.2) :
    decodeEntries reg (encodeFields fs) = some fs := by
  induction fs with
  | nil => rfl
  | cons p rest ih =>
    obtain ⟨k, v⟩ := p
    simp [encodeFields, decodeEntries, h (k, v) (List.mem_cons_self _ _),
      ih (fun q hq => h q (List.mem_cons_of_mem _ hq))]

lemma decodeEntries_map_keys (reg : Registry) (g : String → String)
    (es : List (String × JsonValue)) :
    decodeEntries reg (es.map (fun p => (g p.1, p.2))) =
      (decodeEntries reg es).map (List.map (fun p => (g p.1, p.2))) := by
  induction es with
  | nil => rfl
  | cons p rest ih =>
    obtain ⟨k, jv⟩ := p
    cases hd : decode reg jv <;> cases hr : decodeEntries reg rest <;>
      simp [decodeEntries, hd, hr, ih]

lemma lookupRename_idem (rn : List (String × String))
    (hfix : ∀ p ∈ rn, lookupRename rn p.2 = p.2) (k : String) :
    lookupRename rn (lookupRename rn k) = lookupRename rn k := by
  have hcases : lookupRename rn k = k ∨ ∃ p ∈ rn, lookupRename rn k = p.2 := by
    rw [lookupRename]
    cases hf : rn.find? (fun q => q.1 == k) with
    | none => exact Or.inl rfl
    | some p => exact Or.inr ⟨p, List.mem_of_find?_eq_some hf, rfl⟩
  rcases hcases with h | ⟨p, hpmem, h⟩
  · rw [h]
    exact h
  · rw [h]
    exact hfix p hpmem

lemma map_rename_id {rn : List (String × String)} {fields : List (String × DValue)}
    (h : ∀ p ∈ fields, lookupRename rn p.1 = p.1) :
    fields.map (fun p => (lookupRename rn p.1, p.2)) = fields := by
  induction fields with
  | nil => rfl
  | cons p rest ih =>
    simp only [List.map_cons, h p (List.mem_cons_self _ _)]
    rw [ih (fun q hq => h q (List.mem_cons_of_mem _ hq))]

lemma decode_encode_of_valid {reg : Registry} {v : DValue} (h : Valid reg v) :
    decode reg (encode v) = some v := by
  induction h with
  | str s => rfl
  | int n => rfl
  | bool b => rfl
  | null => rfl
  | list xs hx ih =>
    rw [encode, decode, decodeList_encodeList reg xs ih]
    rfl
  | tuple tag fields entry hfind htag hkeys hnodup hren hvals ih =>
    have hents := decodeEntries_encodeFields reg fields ih
    have htagentry : entry.tag = tag := by
      rw [Registry.findEntry] at hfind
      have := List.find?_some hfind
      exact eq_of_beq this
    rw [encode, decode]
    simp only [decodeEntries, decode, hents]
    show assemble reg ((classKey, .vStr tag) :: fields) = some (.vTuple tag fields)
    rw [assemble, if_pos rfl, htag, hfind]
    have hmap : fields.map (fun p => (lookupRename entry.fieldRenames p.1, p.2)) = fields :=
      map_rename_id (fun p hp => hren p.1 (hkeys ▸ List.mem_map_of_mem Prod.fst hp))
    show Option.map (fun fs => DValue.vTuple entry.tag fs)
        (buildFields (fields.map (fun p => (lookupRename entry.fieldRenames p.1, p.2)))
          entry.defaults entry.fieldNames) = some (DValue.vTuple tag fields)
    rw [hmap]
    have hb : buildFields fields entry.defaults entry.fieldNames = some fields := by
      rw [← hkeys]
      exact buildFields_eq fields entry.defaults fields
        (fun p hp => Or.inl (lookup_self_of_nodup (hkeys.symm ▸ hnodup) hp))
    rw [hb, htagentry]
    rfl


lemma findEntry_tag {reg : Registry} {tag : String} {entry : RegistryEntry}
    (h : reg.findEntry tag = some entry) : entry.tag = tag := by
  rw [Registry.findEntry] at h
  have hp := List.find?_some h
  exact eq_of_beq hp

lemma map_rename_idem (rn : List (String × String))
    (hfix : ∀ p ∈ rn, lookupRename rn p.2 = p.2) (l : List (String × DValue)) :
    (l.map (fun p => (lookupRename rn p.1, p.2))).map
        (fun p => (lookupRename rn p.1, p.2)) =
      l.map (fun p => (lookupRename rn p.1, p.2)) := by
  rw [List.map_map]
  apply List.map_congr_left
  intro p _
  simp [Function.comp, lookupRename_idem rn hfix p.1]

/-- C1: for every registered composite type and every valid value `v` of
that type, decoding the encoding of `v` against the registry under which
`v`'s type was registered yields `v` again. -/
theorem decode_encode_roundtrip (reg : Registry) (v : DValue) (h : Valid reg v) :
    decode reg (encode v) = some v :=
  decode_encode_of_valid h

/-- Witness for C1 at the concrete `Foo` registry and value. -/
theorem decode_encode_roundtrip_witness :
    decode fooReg (encode fooVal) = some fooVal :=
  decode_encode_roundtrip fooReg fooVal
    (by
      show Valid fooReg (.vTuple "Foo" [("a", .vInt 1), ("b", .vInt 2)])
      refine Valid.tuple _ _
        { tag := "Foo", fieldNames := ["a", "b"], defaults := [("b", .vInt 7)]
          fieldRenames := [] } rfl rfl rfl (by decide) (by decide) ?_
      intro p hp
      simp only [List.mem_cons, List.not_mem_nil, or_false] at hp
      rcases hp with rfl | rfl
      · exact Valid.int 1
      · exact Valid.int 2)


/-- C3: for a registered type with a field-default table, decoding a payload
that omits a field having a registered default succeeds and fills that field
with its default value; the missing field never causes a decode error. -/
theorem decode_fills_missing_default (reg : Registry) (tag f : String)
    (entry : RegistryEntry) (fs1 fs2 : List (String × DValue)) (d : DValue)
    (hfind : reg.findEntry tag = some entry)
    (htag : lookupRename reg.tagRenames tag = tag)
    (hkeys : fs1.map Prod.fst ++ f :: fs2.map Prod.fst = entry.fieldNames)
    (hnodup : entry.fieldNames.Nodup)
    (hren : ∀ g ∈ entry.fieldNames, lookupRename entry.fieldRenames g = g)
    (hd : entry.defaults.lookup f = some d)
    (hvals : ∀ p ∈ fs1 ++ fs2, decode reg (encode p.2) = some p.2) :
    decode reg (.obj ((classKey, .str tag) :: encodeFields (fs1 ++ fs2))) =
      some (.vTuple tag (fs1 ++ (f, d) :: fs2)) := by
  have htagentry : entry.tag = tag := findEntry_tag hfind
  have hents := decodeEntries_encodeFields reg (fs1 ++ fs2) hvals
  rw [decode]
  simp only [decodeEntries, decode, hents]
  show assemble reg ((classKey, .vStr tag) :: (fs1 ++ fs2)) = _
  rw [assemble, if_pos rfl, htag, hfind]
  show Option.map (fun fs => DValue.vTuple entry.tag fs)
      (buildFields ((fs1 ++ fs2).map (fun p => (lookupRename entry.fieldRenames p.1, p.2)))
        entry.defaults entry.fieldNames) = _
  have hsub : ∀ p ∈ fs1 ++ fs2, p.1 ∈ entry.fieldNames := by
    intro p hp
    rw [← hkeys]
    rcases List.mem_append.mp hp with h1 | h2
    · exact List.mem_append.mpr (Or.inl (List.mem_map_of_mem Prod.fst h1))
    · exact List.mem_append.mpr
        (Or.inr (List.mem_cons_of_mem _ (List.mem_map_of_mem Prod.fst h2)))
  have hmap : (fs1 ++ fs2).map (fun p => (lookupRename entry.fieldRenames p.1, p.2)) =
      fs1 ++ fs2 := map_rename_id (fun p hp => hren p.1 (hsub p hp))
  rw [hmap]
  have hnd : (fs1.map Prod.fst ++ f :: fs2.map Prod.fst).Nodup := by
    rw [hkeys]
    exact hnodup
  obtain ⟨hnd1, hndmid, hdisj⟩ := List.nodup_append.mp hnd
  have hf1 : f ∉ fs1.map Prod.fst := fun hmem => hdisj hmem (List.mem_cons_self _ _)
  have hf2 : f ∉ fs2.map Prod.fst := (List.nodup_cons.mp hndmid).1
  have hnd2 : (fs2.map Prod.fst).Nodup := (List.nodup_cons.mp hndmid).2
  have hb : buildFields (fs1 ++ fs2) entry.defaults entry.fieldNames =
      some (fs1 ++ (f, d) :: fs2) := by
    rw [← hkeys]
    have hkeyseq : fs1.map Prod.fst ++ f :: fs2.map Prod.fst =
        (fs1 ++ (f, d) :: fs2).map Prod.fst := by
      simp [List.map_append]
    rw [hkeyseq]
    apply buildFields_eq
    intro p hp
    rcases List.mem_append.mp hp with h1 | hmid
    · exact Or.inl (lookup_append_left _ (lookup_self_of_nodup hnd1 h1))
    · rcases List.mem_cons.mp hmid with he | h2
      · subst he
        refine Or.inr ⟨?_, hd⟩
        apply lookup_none_of_not_mem_keys
        rw [List.map_append]
        intro hmem
        rcases List.mem_append.mp hmem with hm | hm
        · exact hf1 hm
        · exact hf2 hm
      · refine Or.inl ?_
        rw [lookup_append_of_not_mem_keys]
        · exact lookup_self_of_nodup hnd2 h2
        · intro hmem
          exact hdisj hmem (List.mem_cons_of_mem _ (List.mem_map_of_mem Prod.fst h2))
  rw [hb, htagentry]
  rfl

/-- Witness for C3: a `Foo` payload omitting the defaulted field `b`. -/
theorem decode_fills_missing_default_witness :
    decode fooReg (.obj ((classKey, .str "Foo") :: encodeFields [("a", .vInt 1)])) =
      some (.vTuple "Foo" [("a", .vInt 1), ("b", .vInt 7)]) :=
  decode_fills_missing_default fooReg "Foo" "b"
    { tag := "Foo", fieldNames := ["a", "b"], defaults := [("b", .vInt 7)]
      fieldRenames := [] }
    [("a", .vInt 1)] [] (.vInt 7) rfl rfl rfl (by decide) (by decide) rfl
    (by
      intro p hp
      simp only [List.append_nil, List.mem_cons, List.not_mem_nil, or_false] at hp
      subst hp
      rfl)


/-- C4: the rename table is applied before value construction, so decoding a
payload written under a historical field or type name yields the same value
as decoding the equivalent payload written under the current names. -/
theorem decode_rename_equiv (reg : Registry) (t : String) (entry : RegistryEntry)
    (es : List (String × JsonValue))
    (hfind : reg.findEntry (lookupRename reg.tagRenames t) = some entry)
    (htfix : lookupRename reg.tagRenames (lookupRename reg.tagRenames t) =
      lookupRename reg.tagRenames t)
    (hffix : ∀ p ∈ entry.fieldRenames, lookupRename entry.fieldRenames p.2 = p.2) :
    decode reg (.obj ((classKey, .str t) :: es)) =
      decode reg (.obj ((classKey, .str (lookupRename reg.tagRenames t)) ::
        es.map (fun p => (lookupRename entry.fieldRenames p.1, p.2)))) := by
  rw [decode, decode]
  simp only [decodeEntries, decode]
  rw [decodeEntries_map_keys]
  cases hes : decodeEntries reg es with
  | none => rfl
  | some des =>
    show assemble reg ((classKey, .vStr t) :: des) =
      assemble reg ((classKey, .vStr (lookupRename reg.tagRenames t)) ::
        des.map (fun p => (lookupRename entry.fieldRenames p.1, p.2)))
    rw [assemble, assemble, if_pos rfl, if_pos rfl, htfix, hfind]
    show Option.map (fun fs => DValue.vTuple entry.tag fs)
        (buildFields (des.map (fun p => (lookupRename entry.fieldRenames p.1, p.2)))
          entry.defaults entry.fieldNames) =
      Option.map (fun fs => DValue.vTuple entry.tag fs)
        (buildFields ((des.map (fun p => (lookupRename entry.fieldRenames p.1, p.2))).map
            (fun p => (lookupRename entry.fieldRenames p.1, p.2)))
          entry.defaults entry.fieldNames)
    rw [map_rename_idem entry.fieldRenames hffix des]


/-- Witness for C4: the spec's `Foo{a,b}` → rename `b→c` scenario — the old
payload decodes identically to the current-name payload, producing a value
whose `c` equals the original `b`. -/
theorem decode_rename_equiv_witness :
    decode renameReg oldFooPayload =
      decode renameReg (.obj ((classKey, .str "Foo") ::
        [("a", JsonValue.int 1), ("c", JsonValue.int 2)])) ∧
    decode renameReg oldFooPayload =
      some (.vTuple "Foo" [("a", .vInt 1), ("c", .vInt 2)]) :=
  ⟨decode_rename_equiv renameReg "OldFoo"
      { tag := "Foo", fieldNames := ["a", "c"], defaults := []
        fieldRenames := [("b", "c")] }
      [("a", .int 1), ("b", .int 2)] rfl rfl (by decide),
    by rfl⟩


/-! ### Migration manager lemmas -/

lemma not_mem_of_contains_eq_false {α : Type} [BEq α] [LawfulBEq α] {l : List α}
    {a : α} (h : l.contains a = false) : a ∉ l := by
  intro hmem
  rw [← List.elem_iff] at hmem
  rw [List.contains] at h
  rw [h] at hmem
  cases hmem

lemma applyDown_applyUp (s : Schema) (op : MigrationOp) (h : wfOp s op = true) :
    applyDown (applyUp s op) op = s := by
  cases op with
  | addTable n cols =>
    simp only [wfOp, Bool.not_eq_true'] at h
    have hn : n ∉ s.map Prod.fst := not_mem_of_contains_eq_false h
    simp only [applyUp, applyDown, List.filter_append]
    have h2 : List.filter (fun p => !(p.1 == n)) [(n, cols)] = [] := by simp
    rw [h2, List.append_nil]
    apply List.filter_eq_self.mpr
    intro p hp
    simp only [Bool.not_eq_true', beq_eq_false_iff_ne, ne_eq]
    intro he
    exact hn (he ▸ List.mem_map_of_mem Prod.fst hp)
  | addColumn t c =>
    simp only [wfOp, List.all_eq_true] at h
    simp only [applyUp, applyDown, List.map_map]
    conv_rhs => rw [← List.map_id s]
    apply List.map_congr_left
    intro p hp
    obtain ⟨p1, p2⟩ := p
    have hpc := h (p1, p2) hp
    by_cases he : p1 = t
    · subst he
      have hc' : p2.contains c = false := by simpa using hpc
      have hc : c ∉ p2 := not_mem_of_contains_eq_false hc'
      simp [Function.comp, List.erase_append_right, hc]
    · simp [Function.comp, he]

lemma foldl_applyDown_applyUp (ops : List MigrationOp) (s : Schema)
    (h : wfOps s ops = true) :
    ops.reverse.foldl applyDown (ops.foldl applyUp s) = s := by
  induction ops generalizing s with
  | nil => rfl
  | cons op rest ih =>
    simp only [wfOps, Bool.and_eq_true] at h
    simp only [List.reverse_cons, List.foldl_append, List.foldl_cons, List.foldl_nil]
    rw [ih (applyUp s op) h.2]
    exact applyDown_applyUp s op h.1


/-- C6: `upgrade` is idempotent — the second invocation changes neither the
recorded revision nor the schema. -/
theorem upgrade_idempotent (st : DomainState) : upgrade (upgrade st) = upgrade st := by
  simp [upgrade, DomainState.pending, DomainState.head, List.drop_length]

/-- C5: for a domain starting below head whose pending chain is well-formed,
upgrading to head and then downgrading back to the initial revision restores
the pre-migration schema exactly, and the recorded revision returns to the
initial revision. -/
theorem upgrade_downgrade_roundtrip (st : DomainState)
    (hwf : wfOps st.schema (st.pending.map (fun step => step.op)) = true) :
    (downgrade (upgrade st) st.rev).schema = st.schema ∧
    (downgrade (upgrade st) st.rev).rev = st.rev := by
  refine ⟨?_, rfl⟩
  show (((st.chain.take st.chain.length).drop st.rev).reverse.foldl
      (fun s step => applyDown s step.op)
      (st.pending.foldl (fun s step => applyUp s step.op) st.schema)) = st.schema
  rw [List.take_length]
  show ((st.pending.reverse.foldl (fun s step => applyDown s step.op)
      (st.pending.foldl (fun s step => applyUp s step.op) st.schema))) = st.schema
  rw [← List.foldl_map (fun step : MigrationStep => step.op) applyUp]
  rw [← List.foldl_map (fun step : MigrationStep => step.op) applyDown]
  rw [List.map_reverse]
  exact foldl_applyDown_applyUp _ _ hwf

/-- Witness for C5 at the `snapshot_0_7_6` run-storage domain. -/
theorem upgrade_downgrade_roundtrip_witness :
    (downgrade (upgrade runsDomain) runsDomain.rev).schema = runsDomain.schema ∧
    (downgrade (upgrade runsDomain) runsDomain.rev).rev = runsDomain.rev :=
  upgrade_downgrade_roundtrip runsDomain (by decide)


/-- C2: a mutating call against a stale domain with a non-optional pending
step fails fast with a `SchemaMismatch` naming the domain, the current
revision, and the head revision, leaving the store untouched; when every
pending step is optional the same call succeeds at the stale revision. -/
theorem mutate_guard_dual (s : Store) (r : String) :
    (s.mig.rev < s.mig.head →
      (∃ step ∈ s.mig.pending, step.optional = false) →
      mutateStore s r =
        (s, some ⟨s.mig.domain, s.mig.rev, s.mig.head,
          "Please run dagster instance migrate."⟩)) ∧
    ((∀ step ∈ s.mig.pending, step.optional = true) →
      mutateStore s r = ({ s with records := s.records ++ [r] }, none)) := by
  constructor
  · intro hlt hex
    rw [mutateStore, if_pos]
    refine ⟨hlt, ?_⟩
    rw [List.any_eq_true]
    obtain ⟨step, hmem, hopt⟩ := hex
    exact ⟨step, hmem, by simp [hopt]⟩
  · intro hall
    rw [mutateStore, if_neg]
    rintro ⟨hlt, hany⟩
    rw [List.any_eq_true] at hany
    obtain ⟨step, hmem, hopt⟩ := hany
    rw [hall step hmem] at hopt
    simp at hopt

/-- Witness for C2: the non-optional `snapshots` chain blocks the write and
the optional `mode` chain lets it through. -/
theorem mutate_guard_dual_witness :
    mutateStore staleStore "run-2" =
      (staleStore, some ⟨"run storage", 0, 1, "Please run dagster instance migrate."⟩) ∧
    mutateStore optionalStore "run-2" =
      ({ optionalStore with records := optionalStore.records ++ ["run-2"] }, none) :=
  ⟨(mutate_guard_dual staleStore "run-2").1 (by decide)
      ⟨{ op := .addTable "snapshots"
           ["id", "snapshot_id", "snapshot_body", "snapshot_type"]
         optional := false }, by decide, rfl⟩,
    (mutate_guard_dual optionalStore "run-2").2 (by decide)⟩


/-- C7 counterexample: with the index flag set but the partition columns
never backfilled (`mark_index_built` without `migrate`), the index path and
the tag-scan fallback disagree on the very same underlying rows — the
situation `test_run_partition_data_migration` asserts (0 runs vs 2 runs). -/
theorem partition_query_paths_differ :
    queryRunsByPartition unmigratedIndexedStore "ingest_and_train" "2020-01-02" ≠
      partitionRunsByTags unmigratedIndexedStore.rows "ingest_and_train" "2020-01-02" := by
  decide

/-- C7 (amended): the two partition-query paths return identical results
provided every row's partition columns agree with its tag-encoded partition
data — the consistency that `migrate(force_rebuild_all)` establishes. -/
theorem partition_query_equiv_of_consistent (s : RunStore) (pset part : String)
    (hcons : ∀ r ∈ s.rows,
      r.partitionSetCol = r.tags.lookup partitionSetTag ∧
      r.partitionCol = r.tags.lookup partitionTag) :
    queryRunsByPartition s pset part = partitionRunsByTags s.rows pset part := by
  rw [queryRunsByPartition]
  by_cases hb : s.indexBuilt = true
  · rw [if_pos hb, partitionRunsByIndex, partitionRunsByTags]
    apply List.filter_congr
    intro r hr
    rw [(hcons r hr).1, (hcons r hr).2]
  · rw [if_neg hb]

/-- Witness for C7 (amended): after the data migration the paths agree. -/
theorem partition_query_equiv_witness :
    queryRunsByPartition (migrateRunPartitions unmigratedIndexedStore)
        "ingest_and_train" "2020-01-02" =
      partitionRunsByTags (migrateRunPartitions unmigratedIndexedStore).rows
        "ingest_and_train" "2020-01-02" :=
  partition_query_equiv_of_consistent (migrateRunPartitions unmigratedIndexedStore)
    "ingest_and_train" "2020-01-02" (by decide)


/-- C8: immediately after `wipe_asset(k)` the key reads absent, and a
subsequent `record_materialization` for `k` makes it present exactly when
its timestamp strictly exceeds the wipe timestamp. -/
theorem asset_wipe_unwipe (t : AssetTable) (k : List String) (now ts : Nat)
    (r : AssetRecord) (runId : String) (atags : List (String × String))
    (hk : t.lookup k = some r) (hle : r.lastMatTimestamp ≤ now) :
    hasAssetKey (wipeAsset t k now) k = false ∧
    hasAssetKey (recordMaterialization (wipeAsset t k now) k runId atags ts) k =
      decide (now < ts) := by
  have hw : wipeAsset t k now = (k, { r with wipeTimestamp := some now }) :: t := by
    rw [wipeAsset, hk]
  constructor
  · rw [hw, hasAssetKey, lookup_cons_self]
    show decide (now < r.lastMatTimestamp) = false
    rw [decide_eq_false_iff_not]
    exact Nat.not_lt.mpr hle
  · rw [hw, recordMaterialization, lookup_cons_self]
    show hasAssetKey
      ((k, { lastMatTimestamp := ts, lastRunId := runId, wipeTimestamp := some now
             tags := atags }) :: ((k, { r with wipeTimestamp := some now }) :: t)) k =
      decide (now < ts)
    rw [hasAssetKey, lookup_cons_self]

/-- Witness for C8 at a concrete asset table: wiping at time 10 hides the
key and a materialization at time 12 re-reveals it. -/
theorem asset_wipe_unwipe_witness :
    hasAssetKey (wipeAsset sampleAssetTable ["a"] 10) ["a"] = false ∧
    hasAssetKey (recordMaterialization (wipeAsset sampleAssetTable ["a"] 10)
      ["a"] "run-2" [] 12) ["a"] = true :=
  asset_wipe_unwipe sampleAssetTable ["a"] 10 12
    { lastMatTimestamp := 5, lastRunId := "run-1", wipeTimestamp := none
      tags := [("foo", "FOO")] } "run-2" [] rfl (by decide)


/-- C9 counterexample: the legacy-unification migration is not
data-preserving — the 0.10.0 snapshot's schedule state and tick rows are
present before the upgrade and gone afterwards (the repository's own test
asserts zero instigator states after upgrading). -/
theorem unification_wipes_legacy_rows :
    allInstigatorState legacyInstigatorStorage ≠ [] ∧
    allInstigatorState (unificationUpgrade legacyInstigatorStorage) = [] ∧
    getTicks legacyInstigatorStorage "origin-1" ≠ [] ∧
    getTicks (unificationUpgrade legacyInstigatorStorage) "origin-1" = [] := by
  refine ⟨?_, rfl, ?_, rfl⟩ <;> decide

/-- C9 (amended): the legacy-unification migration merges the storage into
the unified tables and drops the legacy schedule tables, but carries no row
over: after upgrade the unified tables exist and are empty, so
`all_instigator_state` returns nothing — a one-way, data-discarding schema
migration. -/
theorem unification_upgrade_one_way (s : InstigatorStorage) :
    (unificationUpgrade s).schedules = none ∧
    (unificationUpgrade s).scheduleTicks = none ∧
    (unificationUpgrade s).jobs = some [] ∧
    (unificationUpgrade s).jobTicks = some [] ∧
    allInstigatorState (unificationUpgrade s) = [] :=
  ⟨rfl, rfl, rfl, rfl, rfl⟩


/-- C10: `check.opt_nonempty_str_param` returns the default for `None` and
for the explicit empty string, returns every other `str` unchanged, and
raises `ParameterCheckError` for non-`None` non-`str` arguments — unlike
`check.opt_str_param`, which returns the empty string as-is. -/
theorem opt_nonempty_str_param_spec (n : String) (d : Option String)
    (s : String) (obj : Check.PyObj) :
    Check.opt_nonempty_str_param .none n d = .ok d ∧
    Check.opt_nonempty_str_param (.str "") n d = .ok d ∧
    (s ≠ "" → Check.opt_nonempty_str_param (.str s) n d = .ok (some s)) ∧
    (obj ≠ .none → obj.isStr = false →
      Check.opt_nonempty_str_param obj n d =
        .error (Check.paramTypeMismatchException obj "str" n)) ∧
    Check.opt_str_param (.str "") n d = .ok (some "") := by
  refine ⟨?_, ?_, ?_, ?_, ?_⟩
  · simp [Check.opt_nonempty_str_param]
  · simp [Check.opt_nonempty_str_param, Check.PyObj.isStr]
  · intro hs
    simp [Check.opt_nonempty_str_param, Check.PyObj.isStr, Check.PyObj.asStr, hs]
  · intro h1 h2
    rw [Check.opt_nonempty_str_param, if_pos ⟨h1, h2⟩]
  · simp [Check.opt_str_param, Check.PyObj.isStr, Check.PyObj.asStr]

/-- Witness for C10 at concrete arguments. -/
theorem opt_nonempty_str_param_spec_witness :
    Check.opt_nonempty_str_param .none "thing" (some "dflt") = .ok (some "dflt") ∧
    Check.opt_nonempty_str_param (.str "") "thing" (some "dflt") = .ok (some "dflt") ∧
    Check.opt_nonempty_str_param (.str "x") "thing" (some "dflt") = .ok (some "x") ∧
    Check.opt_nonempty_str_param (.int 3) "thing" (some "dflt") =
      .error (Check.paramTypeMismatchException (.int 3) "str" "thing") ∧
    Check.opt_str_param (.str "") "thing" (some "dflt") = .ok (some "") := by
  have h := opt_nonempty_str_param_spec "thing" (some "dflt") "x" (.int 3)
  exact ⟨h.1, h.2.1, h.2.2.1 (by decide), h.2.2.2.1 (by decide) rfl, h.2.2.2.2⟩

end Dagster
